import Mathlib

/-!
Shallow embedding of the BlackBeard HTTP client (github.com/orov-io/BlackBeard)
and proofs about its request pipeline: URI composition, header handling,
body encoding, query merging, response caching and response decoding.

The repository carries two variants of some files; where they differ both
variants are embedded and named (the `V2` definitions come from the variant
stored as `src/unnamed/part_001` / `part_002`, the plain names from
`src/client.go` / `src/headers.go`).
-/

namespace BlackBeard

/-- Constant `uriSeparator` from `client.go`. -/
def uriSeparator : String := "/"

/-- Constant `portSeparator` from `client.go`. -/
def portSeparator : String := ":"

/-- Constant `keyQuery` from `client.go`: the fixed query-parameter name for the API key. -/
def keyQuery : String := "key"

/-- Constant `authorizationHeader` from `headers.go`. -/
def authorizationHeader : String := "Authorization"

/-- Constant `contentTypeHeader` from `headers.go`. -/
def contentTypeHeader : String := "Content-type"

/-- Lower-cased character sequence of a string, used for case-insensitive
header-key comparison. -/
def lowerKey (s : String) : List Char := s.data.map Char.toLower

/-- Case-insensitive header-key comparison, modelling Go `http.Header`'s
canonical-key semantics (`Set`/`Get` canonicalize the key, so keys differing
only in case address the same entry). -/
def keyEq (a b : String) : Bool := lowerKey a == lowerKey b

/-- Go `http.Header`, modelled as an association list of header name to value.
The repository only ever stores single-valued headers (it uses `Set`, which
replaces the whole value slice). -/
structure Headers where
  entries : List (String × String)
deriving DecidableEq, Repr

/-- Go `http.Header.Set`: replaces any entry under the (case-insensitively)
same key and stores the new value. -/
def Headers.set (h : Headers) (k v : String) : Headers :=
  ⟨h.entries.filter (fun p => !(keyEq p.1 k)) ++ [(k, v)]⟩

/-- Go `http.Header.Get`: first value under the (case-insensitively) matching
key, or the empty string when absent. -/
def Headers.get (h : Headers) (k : String) : String :=
  ((h.entries.find? (fun p => keyEq p.1 k)).map Prod.snd).getD ""

/-- The `Client` struct of `client.go`: base path, port, version, service,
header set, API key, and whether an in-memory cache DB was opened
(`cacheDB != nil`). The transport, logger and contexts carry no data the
verified operations depend on. -/
structure Client where
  basePath : String
  port : Int
  version : String
  service : String
  headers : Headers
  apiKey : String
  cacheEnabled : Bool
deriving DecidableEq, Repr

/-- `MakeNewClient` from `client.go`: a fresh client with empty headers and
zero-valued configuration. -/
def MakeNewClient : Client :=
  { basePath := "", port := 0, version := "", service := "",
    headers := ⟨[]⟩, apiKey := "", cacheEnabled := false }

/-- `WithBasePath` from `client.go`: stores the path with trailing `/`
trimmed (`strings.TrimRight(path, uriSeparator)`). -/
def Client.WithBasePath (c : Client) (path : String) : Client :=
  { c with basePath := path.dropRightWhile (· == '/') }

/-- `WithPort` from `client.go`. -/
def Client.WithPort (c : Client) (port : Int) : Client :=
  { c with port := port }

/-- `ToService` from `client.go`. -/
def Client.ToService (c : Client) (service : String) : Client :=
  { c with service := service }

/-- `WithVersion` from `client.go`. -/
def Client.WithVersion (c : Client) (version : String) : Client :=
  { c with version := version }

/-- `WithAPIKey` from `client.go`. -/
def Client.WithAPIKey (c : Client) (key : String) : Client :=
  { c with apiKey := key }

/-- `WithCache` from `client.go`: opens the in-memory badger DB. -/
def Client.WithCache (c : Client) : Client :=
  { c with cacheEnabled := true }

/-- `WithAuthHeader` from `headers.go`. -/
def Client.WithAuthHeader (c : Client) (token : String) : Client :=
  { c with headers := c.headers.set authorizationHeader token }

/-- `shouldAddPort` from `client.go`. -/
def Client.shouldAddPort (c : Client) : Bool := c.port != 0

/-- `shouldAddVersion` from `client.go`. -/
def Client.shouldAddVersion (c : Client) : Bool := c.version != ""

/-- `shouldAddAPIKey` from `client.go`. -/
def Client.shouldAddAPIKey (c : Client) : Bool := c.apiKey != ""

/-- `shouldAddService` from `client.go`. -/
def Client.shouldAddService (c : Client) : Bool := c.service != ""

/-- `getURI` from `client.go`, step for step: base path, optional
`:<port>`, one separator, optional `<version>/`, optional `<service>/`. -/
def Client.getURI (c : Client) : String :=
  let s1 := c.basePath
  let s2 := if c.shouldAddPort then s1 ++ portSeparator ++ toString c.port else s1
  let s3 := s2 ++ uriSeparator
  let s4 := if c.shouldAddVersion then s3 ++ c.version ++ uriSeparator else s3
  let s5 := if c.shouldAddService then s4 ++ c.service ++ uriSeparator else s4
  s5

/-- `strings.TrimLeft(path, uriSeparator)` as used on the call path in
`executeCall`. -/
def trimLeadingSeparators (path : String) : String := path.dropWhile (· == '/')

/-- The URL string built in `executeCall`
(`fmt.Sprintf("%v%v", client.getURI(), strings.TrimLeft(path, uriSeparator))`). -/
def composedURL (c : Client) (path : String) : String :=
  c.getURI ++ trimLeadingSeparators path

theorem stringAppendAssoc (a b c : String) : a ++ b ++ c = a ++ (b ++ c) := by
  cases a; cases b; cases c
  exact congrArg String.mk (List.append_assoc _ _ _)

/-- C5: for every base path, port, version, service, and call path, the
composed request URL equals the base path with trailing separators trimmed,
then `:<port>` iff the port is non-zero, then exactly one `/`, then
`<version>/` iff the version is non-empty, then `<service>/` iff the service
is non-empty, then the call path with leading separators trimmed. -/
theorem C5_uri_composition (basePath : String) (port : Int)
    (version service path : String) :
    composedURL ((((MakeNewClient.WithBasePath basePath).WithPort
        port).WithVersion version).ToService service) path
      = basePath.dropRightWhile (· == '/')
        ++ (if port ≠ 0 then portSeparator ++ toString port else "")
        ++ uriSeparator
        ++ (if version ≠ "" then version ++ uriSeparator else "")
        ++ (if service ≠ "" then service ++ uriSeparator else "")
        ++ path.dropWhile (· == '/') := by
  unfold composedURL Client.getURI trimLeadingSeparators
  simp only [Client.WithBasePath, Client.WithPort, Client.WithVersion,
    Client.ToService, MakeNewClient, Client.shouldAddPort,
    Client.shouldAddVersion, Client.shouldAddService]
  by_cases hp : port = 0 <;> by_cases hv : version = "" <;>
    by_cases hs : service = "" <;>
      simp [hp, hv, hs, stringAppendAssoc]

/-! ## Header inheritance (`headers.go` and the `src/unnamed/part_001` variant) -/

/-- The inbound `http.Request` of a `gin.Context`, as far as header
inheritance is concerned: its header map. -/
structure InboundRequest where
  header : Headers
deriving DecidableEq, Repr

/-- A `gin.Context`: its `Request` field is a pointer and may be nil
(`none`). A nil context itself is modelled by `Option GinContext` at the
call sites. -/
structure GinContext where
  request : Option InboundRequest
deriving DecidableEq, Repr

/-- `InheritFromParentContext` from `src/headers.go`: no nil guards, and it
copies every header name found on the inbound request
(`client.headers.Set(header, ctx.GetHeader(header))` for each key). When the
context or its inbound request is nil, evaluating `ctx.Request.Header`
dereferences a nil pointer and panics at run time; the panic is modelled as
`none`. -/
def InheritFromParentContext (c : Client) (ctx : Option GinContext) :
    Option Client :=
  match ctx with
  | none => none
  | some g =>
    match g.request with
    | none => none
    | some req =>
      if req.header.entries.length == 0 then some c
      else some { c with
        headers := req.header.entries.foldl
          (fun h p => h.set p.1 (req.header.get p.1)) c.headers }

/-- `InheritFromParentContext` from `src/unnamed/part_001`: guards against a
nil context and a nil inbound request (returning the client unchanged), is a
no-op on a headerless request, and otherwise copies exactly the authorization
header value (`client.headers.Set(authorizationHeader,
ctx.GetHeader(authorizationHeader))`). -/
def InheritFromParentContextV2 (c : Client) (ctx : Option GinContext) :
    Client :=
  match ctx with
  | none => c
  | some g =>
    match g.request with
    | none => c
    | some req =>
      if req.header.entries.length == 0 then c
      else { c with
        headers := c.headers.set authorizationHeader
          (req.header.get authorizationHeader) }

theorem keyEq_true (a b : String) : keyEq a b = true ↔ lowerKey a = lowerKey b := by
  unfold keyEq
  exact beq_iff_eq

theorem keyEq_false (a b : String) : keyEq a b = false ↔ lowerKey a ≠ lowerKey b := by
  unfold keyEq
  exact beq_eq_false_iff_ne

theorem keyEq_refl (a : String) : keyEq a a = true := by
  unfold keyEq
  simp

theorem find?_filter_of_imp {α} (l : List α) (p q : α → Bool)
    (h : ∀ x, p x = true → q x = true) :
    (l.filter q).find? p = l.find? p := by
  induction l with
  | nil => rfl
  | cons a t ih =>
    cases hq : q a
    · have hp : p a = false := by
        cases hpa : p a
        · rfl
        · rw [h a hpa] at hq; exact absurd hq (by simp)
      simp [List.filter_cons, hq, List.find?_cons, hp, ih]
    · cases hp : p a
      · simp [List.filter_cons, hq, List.find?_cons, hp, ih]
      · simp [List.filter_cons, hq, List.find?_cons, hp]

/-- Central fact about the header map: `Set` then `Get` behaves like a
case-insensitive map update. -/
theorem Headers.get_set (h : Headers) (k v k' : String) :
    (h.set k v).get k' = if keyEq k' k then v else h.get k' := by
  unfold Headers.set Headers.get
  rw [List.find?_append]
  cases hkk : keyEq k' k with
  | true =>
    have hl : lowerKey k' = lowerKey k := (keyEq_true _ _).1 hkk
    have hnone : (h.entries.filter (fun p => !(keyEq p.1 k))).find?
        (fun p => keyEq p.1 k') = none := by
      rw [List.find?_eq_none]
      intro p hp hc
      have hpk : keyEq p.1 k = false := by
        have := List.of_mem_filter hp
        simpa using this
      exact (keyEq_false _ _).1 hpk (by rw [(keyEq_true _ _).1 hc, hl])
    rw [hnone]
    have hkv : keyEq k k' = true := (keyEq_true _ _).2 hl.symm
    simp [List.find?_cons, hkv]
  | false =>
    have hne : lowerKey k' ≠ lowerKey k := (keyEq_false _ _).1 hkk
    rw [find?_filter_of_imp _ _ _ (fun p hp => by
      have h1 : lowerKey p.1 = lowerKey k' := (keyEq_true _ _).1 hp
      have h2 : keyEq p.1 k = false := (keyEq_false _ _).2 (by
        rw [h1]; exact hne)
      simp [h2])]
    have hkv : keyEq k k' = false := (keyEq_false _ _).2 (fun hc => hne hc.symm)
    cases hf : h.entries.find? (fun p => keyEq p.1 k') with
    | none => simp [hf, List.find?_cons, hkv]
    | some p => simp [hf]

/-- C3 counterexample: calling the `src/headers.go` variant with a nil
context does not return normally — `ctx.Request` dereferences a nil pointer
and panics (modelled as `none`), so it cannot return the client unchanged. -/
theorem C3_counterexample :
    InheritFromParentContext MakeNewClient none = none
    ∧ InheritFromParentContext MakeNewClient none ≠ some MakeNewClient := by
  exact ⟨rfl, by simp [InheritFromParentContext]⟩

/-- C3 (amended): the `src/unnamed/part_001` variant of
`InheritFromParentContext` tolerates a nil context, a context with a nil
inbound request, and a context whose inbound request carries no headers,
returning normally with the client unchanged in all three cases. -/
theorem C3_inherit_nil_safe (c : Client) :
    InheritFromParentContextV2 c none = c
    ∧ InheritFromParentContextV2 c (some ⟨none⟩) = c
    ∧ ∀ req : InboundRequest, req.header.entries = [] →
        InheritFromParentContextV2 c (some ⟨some req⟩) = c := by
  refine ⟨rfl, rfl, fun req hreq => ?_⟩
  simp [InheritFromParentContextV2, hreq]

/-- C3 witness: the nil-safety theorem applied to a concrete client and a
concrete headerless request. -/
theorem C3_witness :
    InheritFromParentContextV2 MakeNewClient none = MakeNewClient
    ∧ InheritFromParentContextV2 MakeNewClient (some ⟨none⟩) = MakeNewClient
    ∧ InheritFromParentContextV2 MakeNewClient (some ⟨some ⟨⟨[]⟩⟩⟩)
        = MakeNewClient := by
  obtain ⟨h1, h2, h3⟩ := C3_inherit_nil_safe MakeNewClient
  exact ⟨h1, h2, h3 ⟨⟨[]⟩⟩ rfl⟩

/-- C2 counterexample: the `src/headers.go` variant copies headers other than
authorization. A parent context whose inbound request carries only the header
`X-Trace-id: t` (and no authorization header) produces a client whose header
set now contains `X-Trace-id`, which the fresh client did not have. -/
theorem C2_counterexample :
    (InheritFromParentContext MakeNewClient
        (some ⟨some ⟨⟨[("X-Trace-id", "t")]⟩⟩⟩)).map
      (fun c => c.headers.get "X-Trace-id") = some "t"
    ∧ MakeNewClient.headers.get "X-Trace-id" = "" := by
  exact ⟨rfl, rfl⟩

/-- C2 (amended): the `src/unnamed/part_001` variant of
`InheritFromParentContext` copies exactly the authorization header value of
the context's inbound request into the client's header set and leaves every
other header unchanged; when the inbound request carries no headers the
client is unchanged. (The `src/headers.go` variant instead copies the full
header set, as the counterexample shows.) -/
theorem C2_inherit_auth_only (c : Client) (req : InboundRequest) :
    (req.header.entries ≠ [] →
      (InheritFromParentContextV2 c (some ⟨some req⟩)).headers.get
          authorizationHeader = req.header.get authorizationHeader
      ∧ ∀ k, keyEq k authorizationHeader = false →
          (InheritFromParentContextV2 c (some ⟨some req⟩)).headers.get k
            = c.headers.get k)
    ∧ (req.header.entries = [] →
        InheritFromParentContextV2 c (some ⟨some req⟩) = c) := by
  constructor
  · intro hne
    have hlen : (req.header.entries.length == 0) = false := by
      cases hx : req.header.entries with
      | nil => exact absurd hx hne
      | cons a t => simp [hx]
    constructor
    · simp only [InheritFromParentContextV2, hlen]
      simp [Headers.get_set, keyEq_refl]
    · intro k hk
      simp only [InheritFromParentContextV2, hlen]
      simp [Headers.get_set, hk]
  · intro he
    simp [InheritFromParentContextV2, he]

/-- C2 witness: the amended theorem applied to a concrete client and a
concrete inbound request carrying an authorization header and a trace
header. -/
theorem C2_witness :
    (InheritFromParentContextV2 MakeNewClient
        (some ⟨some ⟨⟨[("Authorization", "Bearer T"), ("X-Trace-id", "t")]⟩⟩⟩)).headers.get
      authorizationHeader = "Bearer T"
    ∧ (InheritFromParentContextV2 MakeNewClient
        (some ⟨some ⟨⟨[("X-Trace-id", "t")]⟩⟩⟩)).headers.get "X-Trace-id"
      = MakeNewClient.headers.get "X-Trace-id" := by
  constructor
  · have h := (C2_inherit_auth_only MakeNewClient
      ⟨⟨[("Authorization", "Bearer T"), ("X-Trace-id", "t")]⟩⟩).1 (by simp)
    rw [h.1]
    rfl
  · have h := (C2_inherit_auth_only MakeNewClient
      ⟨⟨[("X-Trace-id", "t")]⟩⟩).1 (by simp)
    exact h.2 "X-Trace-id" (by decide)

/-! ## Query composition (`addQuery`, `client.go` lines 372–391) -/

/-- Go `url.Values`: a map from parameter name to a slice of values,
modelled as an association list with unique keys (query keys match exactly;
no canonicalization is involved). -/
abbrev Values := List (String × List String)

/-- Go `url.Values.Add`: appends the value to the slice stored under the key,
creating the key when absent. -/
def Values.add : Values → String → String → Values
  | [], k, v => [(k, [v])]
  | (k0, ws) :: rest, k, v =>
    if k0 == k then (k0, ws ++ [v]) :: rest
    else (k0, ws) :: Values.add rest k v

/-- Slice of values stored under a key (map indexing on `url.Values`); empty
when the key is absent. -/
def Values.getAll : Values → String → List String
  | [], _ => []
  | (k0, ws) :: rest, k => if k0 == k then ws else Values.getAll rest k

/-- The merge loop of `addQuery`: for every key of the explicit query map,
every one of its values is `Add`ed in turn to the parsed query values. -/
def mergeQuery (vs : Values) (query : List (String × List String)) : Values :=
  query.foldl (fun acc kv => kv.2.foldl (fun a v => Values.add a kv.1 v) acc) vs

/-- Concatenation of all value slices a query list supplies for one key, in
list order; the amount `mergeQuery` appends under that key. -/
def qVals : List (String × List String) → String → List String
  | [], _ => []
  | (k0, ws) :: rest, k => (if k = k0 then ws else []) ++ qVals rest k

/-- `addQuery` from `client.go`: a nil query map returns immediately,
leaving the endpoint untouched; otherwise the existing (parsed) query values
are kept, every explicitly supplied value is `Add`ed, and, when an API key is
configured, it is `Add`ed last under the fixed name `key`. The endpoint's
existing query string is represented by its parse result `existing`. -/
def Client.addQuery (c : Client) (existing : Values)
    (query : Option (List (String × List String))) : Values :=
  match query with
  | none => existing
  | some q =>
    let queryValues := mergeQuery existing q
    if c.shouldAddAPIKey then Values.add queryValues keyQuery c.apiKey
    else queryValues

theorem Values.getAll_add_self (vs : Values) (k v : String) :
    (Values.add vs k v).getAll k = vs.getAll k ++ [v] := by
  induction vs with
  | nil => simp [Values.add, Values.getAll]
  | cons p rest ih =>
    obtain ⟨k0, ws⟩ := p
    by_cases hk : k0 = k
    · simp [Values.add, Values.getAll, hk]
    · simp only [Values.add, Values.getAll, beq_iff_eq, hk, if_neg,
        if_false, ite_false]
      simp [Values.getAll, hk, ih]

theorem Values.getAll_add_of_ne (vs : Values) (k v k' : String)
    (h : k' ≠ k) :
    (Values.add vs k v).getAll k' = vs.getAll k' := by
  have hkk : k ≠ k' := Ne.symm h
  induction vs with
  | nil => simp [Values.add, Values.getAll, hkk]
  | cons p rest ih =>
    obtain ⟨k0, ws⟩ := p
    by_cases hk : k0 = k
    · subst hk
      simp [Values.add, Values.getAll, hkk]
    · by_cases hk' : k0 = k'
      · simp [Values.add, Values.getAll, hk, hk', h]
      · simp [Values.add, Values.getAll, hk, hk', ih]

theorem getAll_addList (vs : Values) (key : String) (ws : List String)
    (k : String) :
    (ws.foldl (fun a v => Values.add a key v) vs).getAll k
      = vs.getAll k ++ (if k = key then ws else []) := by
  induction ws generalizing vs with
  | nil => simp
  | cons w tail ih =>
    rw [List.foldl_cons, ih]
    by_cases hk : k = key
    · subst hk
      rw [Values.getAll_add_self]
      simp
    · rw [Values.getAll_add_of_ne _ _ _ _ hk]
      simp [hk]

theorem getAll_mergeQuery (vs : Values) (q : List (String × List String))
    (k : String) :
    (mergeQuery vs q).getAll k = vs.getAll k ++ qVals q k := by
  induction q generalizing vs with
  | nil => simp [mergeQuery, qVals]
  | cons p rest ih =>
    obtain ⟨k0, ws⟩ := p
    unfold mergeQuery at *
    rw [List.foldl_cons, ih, getAll_addList, qVals]
    rw [List.append_assoc]

/-- C4 counterexample: a client configured with the non-empty API key
`secret` issues a call with a nil query map; `addQuery` returns early and the
final query carries no `key` parameter at all. -/
theorem C4_counterexample :
    ((MakeNewClient.WithAPIKey "secret").addQuery [] none).getAll keyQuery
        = []
    ∧ (MakeNewClient.WithAPIKey "secret").apiKey ≠ "" := by
  exact ⟨rfl, by decide⟩

/-- C4 (amended): for every call issued with a non-nil query map on a client
configured with a non-empty API key, the final query values carry, under the
fixed name `key`, the merged explicit values followed by the API key
(appended last); every other key's values are exactly the merged values; and
merging preserves all existing values under every key, appending the
explicitly supplied values after them instead of replacing them. (With a nil
query map `addQuery` returns early and never appends the API key, as the
counterexample shows.) -/
theorem C4_addQuery_apiKey (c : Client) (existing : Values)
    (q : List (String × List String)) (hk : c.apiKey ≠ "") :
    ((c.addQuery existing (some q)).getAll keyQuery
        = (mergeQuery existing q).getAll keyQuery ++ [c.apiKey])
    ∧ (∀ k, k ≠ keyQuery →
        (c.addQuery existing (some q)).getAll k
          = (mergeQuery existing q).getAll k)
    ∧ (∀ k, (mergeQuery existing q).getAll k
        = existing.getAll k ++ qVals q k) := by
  have hadd : c.shouldAddAPIKey = true := by
    unfold Client.shouldAddAPIKey
    simpa using hk
  refine ⟨?_, ?_, fun k => getAll_mergeQuery existing q k⟩
  · simp only [Client.addQuery, hadd, if_true]
    exact Values.getAll_add_self _ _ _
  · intro k hkq
    simp only [Client.addQuery, hadd, if_true]
    exact Values.getAll_add_of_ne _ _ _ _ hkq

/-- C4 witness: the amended theorem applied to a client with API key
`secret`, an endpoint already carrying `a=1`, and an explicit query
`a=2`. -/
theorem C4_witness :
    ((MakeNewClient.WithAPIKey "secret").addQuery [("a", ["1"])]
        (some [("a", ["2"])])).getAll keyQuery
      = (mergeQuery [("a", ["1"])] [("a", ["2"])]).getAll keyQuery
          ++ ["secret"]
    ∧ ((MakeNewClient.WithAPIKey "secret").addQuery [("a", ["1"])]
        (some [("a", ["2"])])).getAll "a"
      = (mergeQuery [("a", ["1"])] [("a", ["2"])]).getAll "a"
    ∧ (mergeQuery [("a", ["1"])] [("a", ["2"])]).getAll "a"
      = Values.getAll [("a", ["1"])] "a" ++ qVals [("a", ["2"])] "a" := by
  have h := C4_addQuery_apiKey (MakeNewClient.WithAPIKey "secret")
    [("a", ["1"])] [("a", ["2"])] (by decide)
  exact ⟨h.1, h.2.1 "a" (by decide), h.2.2 "a"⟩

/-! ## Body encoding, cache and call executor (`client.go`) -/

/-- A Go value handed to `json.Marshal`; `chanLike` stands for the values
(channels, functions, cyclic data) `encoding/json` cannot marshal. -/
inductive GoValue
  | str (s : String)
  | num (n : Int)
  | chanLike
deriving DecidableEq, Repr

/-- `json.Marshal` restricted to the payload values above: fails exactly on
unsupported values. -/
def jsonMarshalValue : GoValue → Option String
  | .str s => some ("\x22" ++ s ++ "\x22")
  | .num n => some (toString n)
  | .chanLike => none

/-- The `body interface{}` argument of a call: nil, a value already shaped
as an `io.Reader` byte stream, or a generic value to be JSON-marshaled. -/
inductive Payload
  | null
  | reader (data : String)
  | value (v : GoValue)
deriving DecidableEq, Repr

/-- `interface2Reader` from `client.go`: nil yields no body, an `io.Reader`
passes through unchanged, anything else is JSON-marshaled and a marshaling
failure is returned as the error. -/
def interface2Reader : Payload → Except String (Option String)
  | .null => .ok none
  | .reader d => .ok (some d)
  | .value v =>
    match jsonMarshalValue v with
    | some s => .ok (some s)
    | none => .error "json: unsupported type"

/-- An `http.Response`, reduced to the fields the client observes: status
code and body bytes. -/
structure Response where
  status : Nat
  body : String
deriving DecidableEq, Repr

/-- `json.Marshal` of a response as the cache stores it: an injective byte
encoding of status and body. -/
def marshalResp (r : Response) : String := toString r.status ++ "|" ++ r.body

/-- Splits a character list at the first `|`. -/
def splitAtBar : List Char → Option (List Char × List Char)
  | [] => none
  | ch :: rest =>
    if ch = '|' then some ([], rest)
    else
      match splitAtBar rest with
      | none => none
      | some (a, b) => some (ch :: a, b)

/-- Decimal digit value of a character, if any. -/
def digitVal (ch : Char) : Option Nat :=
  if ch.toNat ≥ 48 ∧ ch.toNat ≤ 57 then some (ch.toNat - 48) else none

/-- Parses a non-empty digit string. -/
def digitsToNatAux : List Char → Nat → Option Nat
  | [], acc => some acc
  | ch :: rest, acc =>
    match digitVal ch with
    | some d => digitsToNatAux rest (acc * 10 + d)
    | none => none

/-- Parses a non-empty decimal number. -/
def digitsToNat : List Char → Option Nat
  | [] => none
  | l => digitsToNatAux l 0

/-- `json.Unmarshal` of a cached value back into a response; fails on bytes
that do not parse back. -/
def unmarshalResp (s : String) : Option Response :=
  match splitAtBar s.data with
  | none => none
  | some (code, body) =>
    match digitsToNat code with
    | some n => some ⟨n, String.mk body⟩
    | none => none

/-- `getCacheKey` from `client.go` concatenates the JSON forms of method,
path, body and query into one deterministic byte key; the fingerprint is
modelled as the tuple itself (deterministic and injective in its four
inputs). -/
structure CacheKey where
  method : String
  path : String
  body : Payload
  query : Option (List (String × List String))
deriving DecidableEq, Repr

/-- `getCacheKey` from `client.go`. -/
def getCacheKey (method path : String) (body : Payload)
    (query : Option (List (String × List String))) : CacheKey :=
  ⟨method, path, body, query⟩

/-- The badger store backing the cache: key to stored bytes. -/
abbrev CacheDB := List (CacheKey × String)

/-- `txn.Get`: the stored bytes under the key, if present. -/
def CacheDB.lookup : CacheDB → CacheKey → Option String
  | [], _ => none
  | (k0, v0) :: rest, k => if k0 == k then some v0 else CacheDB.lookup rest k

/-- `txn.Set`: stores the value under the key, overwriting any prior
entry. -/
def CacheDB.setEntry : CacheDB → CacheKey → String → CacheDB
  | [], k, v => [(k, v)]
  | (k0, v0) :: rest, k, v =>
    if k0 == k then (k, v) :: rest else (k0, v0) :: CacheDB.setEntry rest k v

/-- The `View` transaction built by `getResponseFromCache`: a missing key is
swallowed (`ErrKeyNotFound` is mapped to a nil error, and the closure's
`response = nil` only rebinds the closure-local pointer, so the caller keeps
the zero-valued response); a present key is unmarshaled into the response and
only an unmarshal failure surfaces as a non-nil error. Returns the response
the caller observes and whether `View` returned an error. -/
def getResponseFromCache (db : CacheDB) (key : CacheKey) : Response × Bool :=
  match db.lookup key with
  | none => (⟨0, ""⟩, false)
  | some val =>
    match unmarshalResp val with
    | some r => (r, false)
    | none => (⟨0, ""⟩, true)

/-- `callCached` from `client.go`: reports no hit when the cache is
disabled; otherwise runs the view transaction and returns the response
together with `err != nil` as the cached flag — the flag is true exactly
when the transaction returned an error. -/
def Client.callCached (c : Client) (db : CacheDB) (method path : String)
    (body : Payload) (query : Option (List (String × List String))) :
    Option Response × Bool :=
  if c.cacheEnabled = false then (none, false)
  else
    let key := getCacheKey method path body query
    let result := getResponseFromCache db key
    (some result.1, result.2)

/-- `cache` from `client.go`: a no-op without a cache DB; otherwise the
serialized response is stored under the fingerprint, overwriting any prior
entry. -/
def Client.cache (c : Client) (db : CacheDB) (method path : String)
    (body : Payload) (query : Option (List (String × List String)))
    (response : Response) : CacheDB :=
  if c.cacheEnabled = false then db
  else db.setEntry (getCacheKey method path body query) (marshalResp response)

/-- Milestones of one `executeCall` run, in the order the code reaches
them. -/
inductive Event
  | cacheChecked
  | bodyEncoded
  | uriComposed
  | sentToNetwork
deriving DecidableEq, Repr

/-- The outgoing `http.Request` as built by `executeCall`: method, composed
URL, merged query values, injected headers and encoded body. -/
structure OutRequest where
  method : String
  url : String
  query : Values
  headers : Headers
  body : Option String
deriving DecidableEq, Repr

/-- Everything one `executeCall` run produces: the returned response or
error, the cache DB afterwards, the milestones reached, and the request
given to the transport, when one was. -/
structure CallOutcome where
  response : Option Response
  err : Option String
  db : CacheDB
  events : List Event
  sent : Option OutRequest
deriving DecidableEq, Repr

/-- `executeCall` from `client.go`, step for step: ask the cache first and
return the cached response on a reported hit; encode the body, aborting on
an encoding error; compose the URI; merge the query; inject the headers;
send over the transport (`net` is the transport, returning the response or a
transport error); finally offer a successful response to the cache. URL
parsing (`url.Parse`) and request construction (`http.NewRequest`) cannot
fail on the strings this model composes, so their error branches are not
taken. -/
def Client.executeCall (c : Client) (db : CacheDB)
    (net : OutRequest → Except String Response)
    (method path : String) (body : Payload)
    (query : Option (List (String × List String))) : CallOutcome :=
  let cached := c.callCached db method path body query
  if cached.2 then
    { response := cached.1, err := none, db := db,
      events := [.cacheChecked], sent := none }
  else
    match interface2Reader body with
    | .error e =>
      { response := none, err := some e, db := db,
        events := [.cacheChecked], sent := none }
    | .ok bodyReader =>
      let request : OutRequest :=
        { method := method, url := composedURL c path,
          query := c.addQuery [] query, headers := c.headers,
          body := bodyReader }
      match net request with
      | .error e =>
        { response := none, err := some e, db := db,
          events := [.cacheChecked, .bodyEncoded, .uriComposed,
            .sentToNetwork],
          sent := some request }
      | .ok resp =>
        { response := some resp, err := none,
          db := c.cache db method path body query resp,
          events := [.cacheChecked, .bodyEncoded, .uriComposed,
            .sentToNetwork],
          sent := some request }

/-- A transport that always answers 200 with body `ok`. -/
def constNet : OutRequest → Except String Response := fun _ => .ok ⟨200, "ok"⟩

/-- A cache-enabled client. -/
def cacheClient : Client := MakeNewClient.WithCache

/-- First of two identical calls against the cache-enabled client. -/
def firstOutcome : CallOutcome :=
  cacheClient.executeCall [] constNet "GET" "/x" .null none

/-- Second, identical call, run against the cache state the first call
left behind. -/
def secondOutcome : CallOutcome :=
  cacheClient.executeCall firstOutcome.db constNet "GET" "/x" .null none

/-- C1: the first call stores its response in the cache and the stored bytes
decode back to that response — yet `callCached` reports the hit flag `false`
(it returns `err != nil`, and a successful cache read has a nil error), so
the second identical call re-encodes, re-composes and performs a second
network request instead of being answered from the cache. -/
theorem C1_cache_hit_flag_inverted :
    firstOutcome.db.lookup (getCacheKey "GET" "/x" .null none)
        = some (marshalResp ⟨200, "ok"⟩)
    ∧ unmarshalResp (marshalResp ⟨200, "ok"⟩) = some ⟨200, "ok"⟩
    ∧ cacheClient.callCached firstOutcome.db "GET" "/x" .null none
        = (some ⟨200, "ok"⟩, false)
    ∧ secondOutcome.events
        = [.cacheChecked, .bodyEncoded, .uriComposed, .sentToNetwork] := by
  exact ⟨rfl, rfl, rfl, rfl⟩

/-- C6: body encoding — a nil payload yields no request body, a payload that
is already a byte stream passes through unchanged, a marshalable payload is
JSON-marshaled, and when marshaling fails the call (on the cache-miss path,
the only path that encodes at all) returns an error with no response before
the URI is composed and before any network I/O. -/
theorem C6_body_encoding (c : Client) (db : CacheDB)
    (net : OutRequest → Except String Response) (method path : String)
    (query : Option (List (String × List String))) :
    interface2Reader .null = .ok none
    ∧ (∀ d, interface2Reader (.reader d) = .ok (some d))
    ∧ (∀ v s, jsonMarshalValue v = some s →
        interface2Reader (.value v) = .ok (some s))
    ∧ (∀ v, jsonMarshalValue v = none →
        (c.callCached db method path (.value v) query).2 = false →
        (c.executeCall db net method path (.value v) query).response = none
        ∧ (c.executeCall db net method path (.value v) query).err ≠ none
        ∧ Event.uriComposed ∉
            (c.executeCall db net method path (.value v) query).events
        ∧ Event.sentToNetwork ∉
            (c.executeCall db net method path (.value v) query).events) := by
  refine ⟨rfl, fun d => rfl, fun v s hm => ?_, fun v hm hflag => ?_⟩
  · simp [interface2Reader, hm]
  · have hbody : interface2Reader (.value v) = .error "json: unsupported type" := by
      simp [interface2Reader, hm]
    refine ⟨?_, ?_, ?_, ?_⟩ <;>
      simp [Client.executeCall, hflag, hbody]

/-- C6 witness: the encoding facts applied to a concrete cache-less client
and the unmarshalable payload. -/
theorem C6_witness :
    (MakeNewClient.executeCall [] constNet "POST" "/x"
        (.value .chanLike) none).response = none
    ∧ (MakeNewClient.executeCall [] constNet "POST" "/x"
        (.value .chanLike) none).err ≠ none
    ∧ Event.sentToNetwork ∉
        (MakeNewClient.executeCall [] constNet "POST" "/x"
          (.value .chanLike) none).events := by
  have h := (C6_body_encoding MakeNewClient [] constNet "POST" "/x"
    none).2.2.2 .chanLike rfl rfl
  exact ⟨h.1, h.2.1, h.2.2.2⟩

/-! ## Multipart calls (`MULTIPART` and `getMultipartBody`, `client.go`) -/

/-- `MultipartBody` from `client.go`: plain form fields and form-key to
file-path pairs. -/
structure MultipartBody where
  params : List (String × String)
  files : List (String × String)
deriving DecidableEq, Repr

/-- The file system visible to `os.Open`: path to contents; a missing path
makes the open fail. -/
abbrev FileSystem := List (String × String)

/-- `os.Open` followed by reading the whole file. -/
def FileSystem.readFile : FileSystem → String → Option String
  | [], _ => none
  | (p0, c0) :: rest, p => if p0 == p then some c0 else FileSystem.readFile rest p

/-- Accumulator loop for `filepath.Base`. -/
def baseNameAux : List Char → List Char → List Char
  | [], acc => acc
  | ch :: rest, acc =>
    if ch = '/' then baseNameAux rest [] else baseNameAux rest (acc ++ [ch])

/-- `filepath.Base` for the non-empty slash-separated paths used here: the
portion after the last `/`. -/
def filepathBase (path : String) : String := ⟨baseNameAux path.data []⟩

/-- Fixed multipart boundary; Go draws a random one, and nothing verified
depends on its value. -/
def multipartBoundary : String := "f0e42b1b3cf8e24c10d4"

/-- One file section of the multipart body, as `CreateFormFile` plus
`io.Copy` emit it. -/
def filePart (key fileName contents : String) : String :=
  "--" ++ multipartBoundary
    ++ "\r\nContent-Disposition: form-data; name=\"" ++ key
    ++ "\"; filename=\"" ++ fileName ++ "\"\r\n\r\n" ++ contents ++ "\r\n"

/-- One plain field section, as `WriteField` emits it. -/
def formField (key val : String) : String :=
  "--" ++ multipartBoundary
    ++ "\r\nContent-Disposition: form-data; name=\"" ++ key
    ++ "\"\r\n\r\n" ++ val ++ "\r\n"

/-- The closing boundary `writer.Close` emits. -/
def closingBoundary : String := "--" ++ multipartBoundary ++ "--\r\n"

/-- The file loop of `getMultipartBody`: each file is opened — a missing
file aborts the whole construction with the open error — and streamed into a
section named after the form key and the file's base name. -/
def writeFiles (fs : FileSystem) : List (String × String) → Except String String
  | [] => .ok ""
  | (key, p) :: rest =>
    match fs.readFile p with
    | none => .error ("open " ++ p ++ ": no such file or directory")
    | some contents =>
      match writeFiles fs rest with
      | .error e => .error e
      | .ok restBody => .ok (filePart key (filepathBase p) contents ++ restBody)

/-- `getMultipartBody` from `client.go`: writes all file sections (an open
failure aborts and the buffer is discarded with the error return), then all
plain fields, closes the writer, and reports the body together with the
boundary content type. -/
def getMultipartBody (fs : FileSystem) (data : MultipartBody) :
    Except String (String × String) :=
  match writeFiles fs data.files with
  | .error e => .error e
  | .ok fileSections =>
    let fieldSections :=
      data.params.foldl (fun acc kv => acc ++ formField kv.1 kv.2) ""
    .ok (fileSections ++ fieldSections ++ closingBoundary,
      "multipart/form-data; boundary=" ++ multipartBoundary)

/-- `MULTIPART` from `client.go`: builds the multipart body — an error
returns at once, before the headers are touched — then clones the headers,
overrides content-type with the boundary content type, executes a POST with
the built body, and restores the saved headers whether or not the call
succeeded. Returns the call outcome together with the client state after the
call. -/
def Client.MULTIPART (c : Client) (db : CacheDB)
    (net : OutRequest → Except String Response) (fs : FileSystem)
    (path : String) (bodyData : MultipartBody)
    (query : Option (List (String × List String))) : CallOutcome × Client :=
  match getMultipartBody fs bodyData with
  | .error e =>
    ({ response := none, err := some e, db := db, events := [],
       sent := none }, c)
  | .ok (body, formDataContentType) =>
    let saved := c.headers
    let c2 := { c with
      headers := c.headers.set contentTypeHeader formDataContentType }
    let outcome := c2.executeCall db net "POST" path (.reader body) query
    (outcome, { c2 with headers := saved })

theorem executeCall_sent_headers (c : Client) (db : CacheDB)
    (net : OutRequest → Except String Response) (method path : String)
    (body : Payload) (query : Option (List (String × List String)))
    (req : OutRequest)
    (h : (c.executeCall db net method path body query).sent = some req) :
    req.headers = c.headers := by
  unfold Client.executeCall at h
  by_cases hflag : (c.callCached db method path body query).2 = true
  · simp [hflag] at h
  · rw [Bool.not_eq_true] at hflag
    simp only [hflag, Bool.false_eq_true, if_false] at h
    cases hb : interface2Reader body with
    | error e => simp [hb] at h
    | ok br =>
      simp only [hb] at h
      split at h <;>
        · simp only [Option.some.injEq] at h
          rw [← h]

theorem writeFiles_error (fs : FileSystem) (files : List (String × String))
    (e : String) (h : writeFiles fs files = .error e) :
    ∃ key p, (key, p) ∈ files ∧ fs.readFile p = none
      ∧ e = "open " ++ p ++ ": no such file or directory" := by
  induction files with
  | nil => simp [writeFiles] at h
  | cons kv rest ih =>
    obtain ⟨key, p⟩ := kv
    unfold writeFiles at h
    cases hr : fs.readFile p with
    | none =>
      rw [hr] at h
      refine ⟨key, p, by simp, hr, ?_⟩
      cases h
      rfl
    | some contents =>
      rw [hr] at h
      cases hw : writeFiles fs rest with
      | error e2 =>
        rw [hw] at h
        cases h
        obtain ⟨k2, p2, hm, hn, he⟩ := ih hw
        exact ⟨k2, p2, by simp [hm], hn, he⟩
      | ok s =>
        rw [hw] at h
        simp at h

/-- C7: the content-type header of a MULTIPART call is overridden to the
multipart boundary content type only on the request of that call, and once
the call returns — whether the transport succeeded or failed — the client's
entire header set equals its value from before the call; when the multipart
body cannot be built (a file cannot be opened) the call returns the open
error naming the failing file, nothing is sent, and the client is never
modified. -/
theorem C7_multipart_header_restore (c : Client) (db : CacheDB)
    (net : OutRequest → Except String Response) (fs : FileSystem)
    (path : String) (bodyData : MultipartBody)
    (query : Option (List (String × List String))) :
    ((c.MULTIPART db net fs path bodyData query).2.headers = c.headers)
    ∧ (∀ e, getMultipartBody fs bodyData = .error e →
        (c.MULTIPART db net fs path bodyData query).1.err = some e
        ∧ (c.MULTIPART db net fs path bodyData query).2 = c
        ∧ (c.MULTIPART db net fs path bodyData query).1.sent = none
        ∧ ∃ key p, (key, p) ∈ bodyData.files ∧ fs.readFile p = none
            ∧ e = "open " ++ p ++ ": no such file or directory")
    ∧ (∀ b ct, getMultipartBody fs bodyData = .ok (b, ct) →
        ∀ req, (c.MULTIPART db net fs path bodyData query).1.sent = some req →
          req.headers.get contentTypeHeader = ct) := by
  cases hg : getMultipartBody fs bodyData with
  | error e0 =>
    have hw : writeFiles fs bodyData.files = .error e0 := by
      unfold getMultipartBody at hg
      cases hw0 : writeFiles fs bodyData.files with
      | error e1 => rw [hw0] at hg; cases hg; rfl
      | ok s => rw [hw0] at hg; simp at hg
    refine ⟨by simp [Client.MULTIPART, hg], fun e he => ?_, fun b ct hok => ?_⟩
    · cases he
      refine ⟨by simp [Client.MULTIPART, hg], by simp [Client.MULTIPART, hg],
        by simp [Client.MULTIPART, hg], writeFiles_error fs bodyData.files e0 hw⟩
    · simp at hok
  | ok pair =>
    obtain ⟨b0, ct0⟩ := pair
    refine ⟨by simp [Client.MULTIPART, hg], fun e he => ?_,
      fun b ct hok req hreq => ?_⟩
    · simp at he
    · simp only [Except.ok.injEq, Prod.mk.injEq] at hok
      obtain ⟨hb0, hct0⟩ := hok
      subst hb0
      subst hct0
      simp only [Client.MULTIPART, hg] at hreq
      have := executeCall_sent_headers _ db net "POST" path (.reader b0)
        query req hreq
      rw [this]
      simp [Headers.get_set, keyEq_refl]

/-- C7 witness: the restore theorem applied to a concrete client, once with
a file that exists (the header set is restored) and once with a missing file
(the client is untouched and the open error names the file). -/
theorem C7_witness :
    ((MakeNewClient.MULTIPART [] constNet [("/tmp/a.txt", "data")] "/up"
        ⟨[("k", "v")], [("file", "/tmp/a.txt")]⟩ none).2.headers
      = MakeNewClient.headers)
    ∧ (MakeNewClient.MULTIPART [] constNet [] "/up"
        ⟨[], [("file", "/missing")]⟩ none).2 = MakeNewClient
    ∧ (MakeNewClient.MULTIPART [] constNet [] "/up"
        ⟨[], [("file", "/missing")]⟩ none).1.err
      = some ("open " ++ "/missing" ++ ": no such file or directory") := by
  have h1 := (C7_multipart_header_restore MakeNewClient [] constNet
    [("/tmp/a.txt", "data")] "/up" ⟨[("k", "v")], [("file", "/tmp/a.txt")]⟩
    none).1
  have h2 := (C7_multipart_header_restore MakeNewClient [] constNet
    [] "/up" ⟨[], [("file", "/missing")]⟩ none).2.1
    ("open " ++ "/missing" ++ ": no such file or directory") rfl
  exact ⟨h1, h2.2.1, h2.1⟩

/-! ## Response decoding (`src/unnamed/part_003`) -/

/-- A JSON value: the dynamically-typed shape `Body2Interface` produces by
unmarshaling the body into `interface\x7b\x7d`. -/
inductive Json
  | null
  | bool (b : Bool)
  | num (n : Int)
  | str (s : String)
  | arr (xs : List Json)
  | obj (fields : List (String × Json))

/-- An `http.Response` as the decoders observe it: status code plus body,
the body represented by the result of reading and JSON-parsing it (`none`
when `json.Unmarshal` into a generic value fails, i.e. the bytes are not
JSON). -/
structure HttpResponse where
  statusCode : Int
  bodyJson : Option Json

/-- `isValidResponse` from `src/unnamed/part_003`:
`StatusCode >= http.StatusOK && StatusCode < http.StatusBadRequest`. -/
def isValidResponse (r : HttpResponse) : Bool :=
  decide (200 ≤ r.statusCode) && decide (r.statusCode < 400)

/-- `ErrorResponse` from `src/unnamed/part_003`. -/
structure ErrorResponse where
  name : String
  message : String
  code : Int
  className : String
  data : List (String × String)
  errors : List (String × String)
deriving DecidableEq, Repr

/-- `PaginatedResponse` from `src/unnamed/part_003`: total, limit, skip and
the opaque records. -/
structure PaginatedResponse where
  total : Int
  limit : Int
  skip : Int
  data : List Json

/-- First JSON value under the key of an object's field list. -/
def getField : List (String × Json) → String → Option Json
  | [], _ => none
  | (k0, v) :: rest, k => if k0 == k then some v else getField rest k

/-- `json.Unmarshal` of one numeric struct field: absent or null leaves the
zero value, a number is taken, any other shape is an unmarshal error
(`none`). -/
def decodeIntField (fields : List (String × Json)) (k : String) : Option Int :=
  match getField fields k with
  | none => some 0
  | some .null => some 0
  | some (.num n) => some n
  | some _ => none

/-- `json.Unmarshal` of one string struct field. -/
def decodeStrField (fields : List (String × Json)) (k : String) : Option String :=
  match getField fields k with
  | none => some ""
  | some .null => some ""
  | some (.str s) => some s
  | some _ => none

/-- `json.Unmarshal` of an object into `map[string]string` entries. -/
def decodeStrPairs : List (String × Json) → Option (List (String × String))
  | [] => some []
  | (k, .str s) :: rest => (decodeStrPairs rest).map (fun t => (k, s) :: t)
  | (k, .null) :: rest => (decodeStrPairs rest).map (fun t => (k, "") :: t)
  | _ => none

/-- `json.Unmarshal` of one `map[string]string` struct field. -/
def decodeMapField (fields : List (String × Json)) (k : String) :
    Option (List (String × String)) :=
  match getField fields k with
  | none => some []
  | some .null => some []
  | some (.obj kvs) => decodeStrPairs kvs
  | some _ => none

/-- `json.Unmarshal` of the `data` slice field: absent or null gives a nil
slice, an array gives its elements, anything else is an unmarshal error. -/
def decodeArrField (fields : List (String × Json)) (k : String) :
    Option (List Json) :=
  match getField fields k with
  | none => some []
  | some .null => some []
  | some (.arr xs) => some xs
  | some _ => none

/-- `json.Unmarshal` of a generic JSON value into `ErrorResponse` (the
round trip `ParseTo` performs): a top-level null leaves the zero value, an
object decodes field-wise with unknown fields ignored, any other top-level
shape is an unmarshal error. -/
def decodeErrorResponse : Json → Option ErrorResponse
  | .null => some ⟨"", "", 0, "", [], []⟩
  | .obj fields =>
    match decodeStrField fields "name", decodeStrField fields "message",
        decodeIntField fields "code", decodeStrField fields "class_name",
        decodeMapField fields "data", decodeMapField fields "errors" with
    | some n, some m, some cd, some cn, some d, some er =>
      some ⟨n, m, cd, cn, d, er⟩
    | _, _, _, _, _, _ => none
  | _ => none

/-- `json.Unmarshal` of a generic JSON value into `PaginatedResponse`. -/
def decodePaginated : Json → Option PaginatedResponse
  | .null => some ⟨0, 0, 0, []⟩
  | .obj fields =>
    match decodeIntField fields "total", decodeIntField fields "limit",
        decodeIntField fields "skip", decodeArrField fields "data" with
    | some t, some l, some s, some d => some ⟨t, l, s, d⟩
    | _, _, _, _ => none
  | _ => none

/-- The zero `ErrorResponse`. -/
def zeroErrorResponse : ErrorResponse := ⟨"", "", 0, "", [], []⟩

/-- The fallback wrapper `parseError` builds on both of its failure paths:
name `No standar error found`, the response's status code, and the decode
failure text under the `parsed error` key. -/
def fallbackError (statusCode : Int) (msg : String) : ErrorResponse :=
  { zeroErrorResponse with
    name := "No standar error found"
    code := statusCode
    errors := [("parsed error", msg)] }

/-- `parseError` from `src/unnamed/part_003`: reads the body
(`Body2Interface`) — a read/parse failure yields the fallback wrapper —
then decodes it into the structured error shape (`ParseTo`) — a decode
failure again yields the fallback wrapper — and otherwise returns the
decoded structured error. The constant failure strings stand for the
embedded `err.Error()` texts. -/
def parseError (resp : HttpResponse) : ErrorResponse :=
  match resp.bodyJson with
  | none => fallbackError resp.statusCode "invalid JSON body"
  | some body =>
    match decodeErrorResponse body with
    | none => fallbackError resp.statusCode "cannot unmarshal into ErrorResponse"
    | some er => er

/-- The failure signal of the paginated extraction: either the structured
(or fallback) `ErrorResponse`, or the plain read/decode error
`getPaginatedData` returns on the success-status path. -/
inductive ApiError
  | errorResponse (e : ErrorResponse)
  | plainError (msg : String)

/-- `getPaginatedData` from `src/unnamed/part_003`: a response outside the
success range fails with `parseError`'s result; otherwise the body is read
and decoded into the paginated shape, read and decode failures surfacing as
plain errors. -/
def getPaginatedData (resp : HttpResponse) :
    Except ApiError PaginatedResponse :=
  if !(isValidResponse resp) then .error (.errorResponse (parseError resp))
  else
    match resp.bodyJson with
    | none => .error (.plainError "invalid JSON body")
    | some body =>
      match decodePaginated body with
      | none => .error (.plainError "cannot unmarshal into PaginatedResponse")
      | some p => .ok p

/-- `ParseOnePaginated` from `src/unnamed/part_003`, with the final
`ParseTo(paginatedData.Data[0], receiver)` represented by the record that
call receives: `paginatedData.Data[0]` is an unguarded index into the
decoded slice, so an empty slice panics with index-out-of-range at run
time, modelled as `none`. -/
def ParseOnePaginated (resp : HttpResponse) : Option (Except ApiError Json) :=
  match getPaginatedData resp with
  | .error e => some (.error e)
  | .ok p =>
    match p.data with
    | [] => none
    | d :: _ => some (.ok d)

/-- C8: paginated extraction checks the 200–399 success range first; outside
it the failure signal is the structured error decoded from the body, or — when
the body does not decode into the structured shape — the fallback wrapper
carrying the status code and the decode failure text; inside the range the
body is decoded into the paginated shape, and the first-record variant
projects exactly record 0. -/
theorem C8_paginated_extraction (resp : HttpResponse) :
    (isValidResponse resp = false →
      ∃ er, getPaginatedData resp = .error (.errorResponse er)
        ∧ ((∃ b, resp.bodyJson = some b ∧ decodeErrorResponse b = some er)
           ∨ (er.name = "No standar error found"
              ∧ er.code = resp.statusCode
              ∧ ∃ msg, er.errors = [("parsed error", msg)])))
    ∧ (isValidResponse resp = true →
        ∀ b p, resp.bodyJson = some b → decodePaginated b = some p →
          getPaginatedData resp = .ok p
          ∧ ∀ d rest, p.data = d :: rest →
              ParseOnePaginated resp = some (.ok d))
    ∧ (isValidResponse resp = true
        ↔ 200 ≤ resp.statusCode ∧ resp.statusCode < 400) := by
  refine ⟨fun hval => ?_, fun hval b p hb hp => ?_, ?_⟩
  · cases hbj : resp.bodyJson with
    | none =>
      refine ⟨fallbackError resp.statusCode "invalid JSON body", ?_, ?_⟩
      · simp [getPaginatedData, hval, parseError, hbj]
      · exact Or.inr ⟨rfl, rfl, _, rfl⟩
    | some body =>
      cases hde : decodeErrorResponse body with
      | none =>
        refine ⟨fallbackError resp.statusCode
          "cannot unmarshal into ErrorResponse", ?_, ?_⟩
        · simp [getPaginatedData, hval, parseError, hbj, hde]
        · exact Or.inr ⟨rfl, rfl, _, rfl⟩
      | some er0 =>
        refine ⟨er0, ?_, Or.inl ⟨body, rfl, hde⟩⟩
        simp [getPaginatedData, hval, parseError, hbj, hde]
  · have hget : getPaginatedData resp = .ok p := by
      simp [getPaginatedData, hval, hb, hp]
    refine ⟨hget, fun d rest hd => ?_⟩
    unfold ParseOnePaginated
    rw [hget]
    simp [hd]
  · unfold isValidResponse
    simp

/-- C8 witness: a 404 response with an unparseable body yields the fallback
wrapper as the failure signal, and a 200 response with a two-record
paginated body decodes, the first-record variant projecting record 0. -/
theorem C8_witness :
    getPaginatedData ⟨404, none⟩
      = .error (.errorResponse (fallbackError 404 "invalid JSON body"))
    ∧ getPaginatedData ⟨200, some (Json.obj
        [("total", Json.num 2), ("limit", Json.num 10),
         ("skip", Json.num 0),
         ("data", Json.arr [Json.obj [("id", Json.num 1)],
           Json.obj [("id", Json.num 2)]])])⟩
      = .ok ⟨2, 10, 0, [Json.obj [("id", Json.num 1)],
          Json.obj [("id", Json.num 2)]]⟩
    ∧ ParseOnePaginated ⟨200, some (Json.obj
        [("total", Json.num 2), ("limit", Json.num 10),
         ("skip", Json.num 0),
         ("data", Json.arr [Json.obj [("id", Json.num 1)],
           Json.obj [("id", Json.num 2)]])])⟩
      = some (.ok (Json.obj [("id", Json.num 1)])) := by
  have h2 := (C8_paginated_extraction ⟨200, some (Json.obj
    [("total", Json.num 2), ("limit", Json.num 10), ("skip", Json.num 0),
     ("data", Json.arr [Json.obj [("id", Json.num 1)],
       Json.obj [("id", Json.num 2)]])])⟩).2.1 rfl _ _ rfl rfl
  exact ⟨rfl, h2.1, h2.2 _ _ rfl⟩

/-! ## Generic decoding (`ParseTo` / `isAPointer`, `src/unnamed/part_003`) -/

/-- The kind reflection reports for a receiver (`reflect.ValueOf(i).Kind()`):
a pointer, or any non-pointer value. -/
inductive GoKind
  | ptr
  | value
deriving DecidableEq, Repr

/-- The concrete shapes a receiver can target, enough to express shape
matches and mismatches. -/
inductive TargetShape
  | intTarget
  | strTarget
  | paginatedTarget
  | errorResponseTarget
deriving DecidableEq, Repr

/-- A `receiver interface\x7b\x7d` argument: its reflected kind and the
shape behind it. -/
structure Receiver where
  kind : GoKind
  shape : TargetShape
deriving DecidableEq, Repr

/-- `isAPointer` from `src/unnamed/part_003`. -/
def isAPointer (r : Receiver) : Bool := r.kind == .ptr

/-- Whether `json.Unmarshal` of the re-marshaled data into the receiver's
shape succeeds. -/
def unmarshalInto (j : Json) (t : TargetShape) : Bool :=
  match t with
  | .intTarget =>
    match j with
    | .num _ => true
    | .null => true
    | _ => false
  | .strTarget =>
    match j with
    | .str _ => true
    | .null => true
    | _ => false
  | .paginatedTarget => (decodePaginated j).isSome
  | .errorResponseTarget => (decodeErrorResponse j).isSome

/-- The error values `ParseTo` can produce: the distinct
`NotAPointerError`, versus the generic `fmt.Errorf`-wrapped marshal and
unmarshal failures. -/
inductive ParseErr
  | notAPointer
  | marshalFailed (msg : String)
  | unmarshalFailed (msg : String)
deriving DecidableEq, Repr

/-- `IsNotAPointerError` from `src/unnamed/part_003`: the type assertion on
the error value. -/
def IsNotAPointerError : ParseErr → Bool
  | .notAPointer => true
  | _ => false

/-- `ParseTo` from `src/unnamed/part_003`: a non-pointer receiver fails with
the distinct not-a-pointer error before any decoding is attempted; otherwise
the data — itself a generic JSON value, whose re-marshal cannot fail — is
unmarshaled into the receiver, a shape mismatch surfacing as the generic
wrapped decode error. -/
def ParseTo (data : Json) (receiver : Receiver) : Except ParseErr Unit :=
  if !(isAPointer receiver) then .error .notAPointer
  else if unmarshalInto data receiver.shape then .ok ()
  else .error (.unmarshalFailed "cannot unmarshal response data")

/-- C9: a non-pointer receiver makes `ParseTo` fail with the distinct
not-a-pointer error kind regardless of the data (no decoding is attempted);
a pointer receiver with a JSON shape mismatch fails with the generic decode
error, a different kind, so `IsNotAPointerError` lets callers distinguish
the two. -/
theorem C9_decode_error_kinds (data : Json) (receiver : Receiver) :
    (receiver.kind = .value → ParseTo data receiver = .error .notAPointer)
    ∧ (receiver.kind = .ptr → unmarshalInto data receiver.shape = false →
        ParseTo data receiver
            = .error (.unmarshalFailed "cannot unmarshal response data")
          ∧ IsNotAPointerError
              (.unmarshalFailed "cannot unmarshal response data") = false)
    ∧ IsNotAPointerError .notAPointer = true := by
  refine ⟨fun hv => ?_, fun hp hm => ?_, rfl⟩
  · simp [ParseTo, isAPointer, hv]
  · exact ⟨by simp [ParseTo, isAPointer, hp, hm], rfl⟩

/-- C9 witness: a string decoded at a non-pointer integer receiver gives the
not-a-pointer kind; the same data at a pointer receiver gives the generic
decode-failure kind. -/
theorem C9_witness :
    ParseTo (Json.str "x") ⟨GoKind.value, TargetShape.intTarget⟩
        = .error .notAPointer
    ∧ ParseTo (Json.str "x") ⟨GoKind.ptr, TargetShape.intTarget⟩
        = .error (.unmarshalFailed "cannot unmarshal response data") := by
  have h1 := (C9_decode_error_kinds (Json.str "x")
    ⟨GoKind.value, TargetShape.intTarget⟩).1 rfl
  have h2 := (C9_decode_error_kinds (Json.str "x")
    ⟨GoKind.ptr, TargetShape.intTarget⟩).2.1 rfl rfl
  exact ⟨h1, h2.1⟩

/-- C10: a success-status (200) response whose paginated body carries an
empty `data` array is accepted by `getPaginatedData`, and the first-record
extraction then evaluates the unguarded `paginatedData.Data[0]` on the empty
slice — an index-out-of-range panic (modelled as `none`) instead of an error
return, so the out-of-bounds access is reachable from the public
interface. -/
theorem C10_first_paginated_oob :
    isValidResponse ⟨200, some (Json.obj
        [("total", Json.num 0), ("limit", Json.num 10),
         ("skip", Json.num 0), ("data", Json.arr [])])⟩ = true
    ∧ getPaginatedData ⟨200, some (Json.obj
        [("total", Json.num 0), ("limit", Json.num 10),
         ("skip", Json.num 0), ("data", Json.arr [])])⟩
      = .ok ⟨0, 10, 0, []⟩
    ∧ ParseOnePaginated ⟨200, some (Json.obj
        [("total", Json.num 0), ("limit", Json.num 10),
         ("skip", Json.num 0), ("data", Json.arr [])])⟩ = none := by
  exact ⟨rfl, rfl, rfl⟩

end BlackBeard
